import Mathlib

/-!
Verification model of the AI Study Pack Generator pipeline (src/app.py).

The script is a linear four-step pipeline: content extraction from uploaded
files, an optional batched vision call, notes generation, mind-map generation
with fence-marker stripping, and packaging into a PDF and a PNG.  External
collaborators (the generative model, the markdown, PDF and graph renderers)
are modelled as black-box function-valued parameters; their calls are
recorded in an explicit trace, and filesystem writes performed by the
packaging step are recorded as a list of file names.
-/

/-- The backtick character, written via its code point. -/
def btick : Char := '\x60'

/-- ASCII whitespace, the characters matched by the regex class \s
(and stripped by str.strip) on the ASCII range. -/
def wsChar (c : Char) : Bool :=
  c == ' ' || c == '\t' || c == '\n' || c == '\r' || c == '\x0b' || c == '\x0c'

/-- Does the character list start with a backtick? -/
def startsB : List Char → Bool
  | [] => false
  | c :: _ => c == btick

/-- Does the character list start with two backticks? -/
def startsBT (l : List Char) : Bool := startsB l && startsB l.tail

/-- Does the character list start with three backticks? -/
def startsTriple (l : List Char) : Bool := startsB l && startsBT l.tail

/-- Does the character list start with the letters d, o, t? -/
def startsDot : List Char → Bool
  | c :: d :: e :: _ => c == 'd' && d == 'o' && e == 't'
  | _ => false

lemma startsB_cons (c : Char) (rest : List Char) : startsB (c :: rest) = (c == btick) := rfl

lemma startsBT_cons (c : Char) (rest : List Char) :
    startsBT (c :: rest) = ((c == btick) && startsB rest) := rfl

lemma startsTriple_cons (c : Char) (rest : List Char) :
    startsTriple (c :: rest) = ((c == btick) && startsBT rest) := rfl

lemma dropWhile_length_le (p : Char → Bool) (l : List Char) :
    (l.dropWhile p).length ≤ l.length := by
  induction l with
  | nil => simp
  | cons a t ih =>
    rw [List.dropWhile_cons]
    split
    · exact Nat.le_trans ih (by simp)
    · exact Nat.le_refl _

lemma fence_measure_dot (p : Char → Bool) (l : List Char) :
    (((l.drop 2).drop 3).dropWhile p).length < l.length + 1 := by
  have h1 := dropWhile_length_le p ((l.drop 2).drop 3)
  simp only [List.length_drop] at h1 ⊢
  omega

lemma fence_measure_bare (l : List Char) : (l.drop 2).length < l.length + 1 := by
  simp only [List.length_drop]
  omega

/-- Global substitution of the regex alternation used on the mind-map
response in src/app.py line 119: at each position, a triple backtick
followed by the letters d, o, t and a greedy whitespace run is removed
first; otherwise a bare triple backtick is removed; otherwise the character
is kept and scanning continues past it.  This mirrors the left-to-right,
non-overlapping scan of the global substitution. -/
def fenceSub : List Char → List Char
  | [] => []
  | c :: rest =>
    if startsTriple (c :: rest) then
      if startsDot (rest.drop 2) then fenceSub (((rest.drop 2).drop 3).dropWhile wsChar)
      else fenceSub (rest.drop 2)
    else c :: fenceSub rest
termination_by l => l.length
decreasing_by
  all_goals simp only [List.length_cons]
  · exact fence_measure_dot wsChar _
  · exact fence_measure_bare _
  · exact Nat.lt_succ_self _

/-- Leading and trailing whitespace trim, modelling str.strip. -/
def pyStrip (l : List Char) : List Char :=
  ((l.dropWhile wsChar).reverse.dropWhile wsChar).reverse

/-- The whole fence-stripping operation from src/app.py line 119: global
fence-marker removal followed by a whitespace trim. -/
def stripFence (s : String) : String :=
  String.mk (pyStrip (fenceSub s.data))

/-- Does the character list contain three consecutive backticks anywhere? -/
def hasTriple : List Char → Bool
  | [] => false
  | c :: rest => startsTriple (c :: rest) || hasTriple rest

lemma startsB_fenceSub (l : List Char) (h : startsB l = false) :
    startsB (fenceSub l) = false := by
  cases l with
  | nil => simp [fenceSub, startsB]
  | cons c rest =>
    have hc : (c == btick) = false := h
    have hcond : startsTriple (c :: rest) = false := by
      rw [startsTriple_cons, hc, Bool.false_and]
    have he : fenceSub (c :: rest) = c :: fenceSub rest := by
      simp [fenceSub, hcond]
    rw [he, startsB_cons, hc]

lemma startsBT_fenceSub (l : List Char) (h : startsBT l = false) :
    startsBT (fenceSub l) = false := by
  cases l with
  | nil => simp [fenceSub, startsBT, startsB]
  | cons c rest =>
    by_cases hc : (c == btick) = true
    · have hr : startsB rest = false := by
        rw [startsBT_cons, hc, Bool.true_and] at h
        exact h
      have hbt : startsBT rest = false := by
        rw [startsBT, hr, Bool.false_and]
      have hcond : startsTriple (c :: rest) = false := by
        rw [startsTriple_cons, hc, Bool.true_and]
        exact hbt
      have he : fenceSub (c :: rest) = c :: fenceSub rest := by
        simp [fenceSub, hcond]
      rw [he, startsBT_cons, startsB_fenceSub rest hr, Bool.and_false]
    · have hc' : (c == btick) = false := by
        cases hx : (c == btick)
        · rfl
        · exact absurd hx hc
      have hcond : startsTriple (c :: rest) = false := by
        rw [startsTriple_cons, hc', Bool.false_and]
      have he : fenceSub (c :: rest) = c :: fenceSub rest := by
        simp [fenceSub, hcond]
      rw [he, startsBT_cons, hc', Bool.false_and]

lemma hasTriple_cons (c : Char) (rest : List Char) :
    hasTriple (c :: rest) = (startsTriple (c :: rest) || hasTriple rest) := rfl

lemma hasTriple_fenceSub (l : List Char) : hasTriple (fenceSub l) = false := by
  induction l using fenceSub.induct with
  | case1 => simp [fenceSub, hasTriple]
  | case2 c rest h1 h2 ih =>
    have he : fenceSub (c :: rest) = fenceSub (((rest.drop 2).drop 3).dropWhile wsChar) := by
      simp [fenceSub, h1, h2]
    rw [he]
    exact ih
  | case3 c rest h1 h2 ih =>
    have he : fenceSub (c :: rest) = fenceSub (rest.drop 2) := by
      simp [fenceSub, h1, h2]
    rw [he]
    exact ih
  | case4 c rest h1 ih =>
    simp only [Bool.not_eq_true] at h1
    have he : fenceSub (c :: rest) = c :: fenceSub rest := by
      simp [fenceSub, h1]
    rw [he]
    have ht : startsTriple (c :: fenceSub rest) = false := by
      by_cases hc : (c == btick) = true
      · have hbt : startsBT rest = false := by
          rw [startsTriple_cons, hc, Bool.true_and] at h1
          exact h1
        rw [startsTriple_cons, hc, Bool.true_and]
        exact startsBT_fenceSub rest hbt
      · have hc' : (c == btick) = false := by
          cases hx : (c == btick)
          · rfl
          · exact absurd hx hc
        rw [startsTriple_cons, hc', Bool.false_and]
    rw [hasTriple_cons, ht, ih, Bool.or_false]

lemma fenceSub_of_noTriple (l : List Char) (h : hasTriple l = false) : fenceSub l = l := by
  induction l with
  | nil => simp [fenceSub]
  | cons c rest ih =>
    rw [hasTriple_cons, Bool.or_eq_false_iff] at h
    have he : fenceSub (c :: rest) = c :: fenceSub rest := by
      simp [fenceSub, h.1]
    rw [he, ih h.2]

lemma startsTriple_iff (l : List Char) :
    startsTriple l = true ↔ ∃ r, l = btick :: btick :: btick :: r := by
  cases l with
  | nil => simp [startsTriple, startsBT, startsB]
  | cons a t =>
    cases t with
    | nil => simp [startsTriple, startsBT, startsB]
    | cons b t2 =>
      cases t2 with
      | nil => simp [startsTriple, startsBT, startsB]
      | cons d r =>
        constructor
        · intro h
          have h' : ((a == btick) && ((b == btick) && (d == btick))) = true := h
          simp only [Bool.and_eq_true, beq_iff_eq] at h'
          exact ⟨r, by rw [h'.1, h'.2.1, h'.2.2]⟩
        · rintro ⟨r', hr⟩
          injection hr with h1 hr
          injection hr with h2 hr
          injection hr with h3 hr
          subst h1
          subst h2
          subst h3
          simp [startsTriple, startsBT, startsB]

lemma hasTriple_iff (l : List Char) :
    hasTriple l = true ↔ ∃ x y, l = x ++ btick :: btick :: btick :: y := by
  induction l with
  | nil =>
    constructor
    · intro h
      exact absurd h (by simp [hasTriple])
    · rintro ⟨x, y, hxy⟩
      cases x <;> simp at hxy
  | cons c rest ih =>
    rw [hasTriple_cons, Bool.or_eq_true, ih, startsTriple_iff]
    constructor
    · rintro (⟨r, hr⟩ | ⟨x, y, hxy⟩)
      · exact ⟨[], r, by simpa using hr⟩
      · exact ⟨c :: x, y, by rw [List.cons_append, hxy]⟩
    · rintro ⟨x, y, hxy⟩
      cases x with
      | nil =>
        left
        exact ⟨y, by simpa using hxy⟩
      | cons a x' =>
        right
        injection hxy with h1 h2
        exact ⟨x', y, h2⟩

lemma pyStrip_decomp (l : List Char) : ∃ u v, l = u ++ pyStrip l ++ v := by
  refine ⟨l.takeWhile wsChar, ((l.dropWhile wsChar).reverse.takeWhile wsChar).reverse, ?_⟩
  have h1 : l.takeWhile wsChar ++ l.dropWhile wsChar = l :=
    List.takeWhile_append_dropWhile wsChar l
  have h2 := List.takeWhile_append_dropWhile wsChar (l.dropWhile wsChar).reverse
  have h3 := congrArg List.reverse h2
  rw [List.reverse_append, List.reverse_reverse] at h3
  calc l = l.takeWhile wsChar ++ l.dropWhile wsChar := h1.symm
    _ = l.takeWhile wsChar ++ (pyStrip l ++ ((l.dropWhile wsChar).reverse.takeWhile wsChar).reverse) := by
        rw [show pyStrip l ++ ((l.dropWhile wsChar).reverse.takeWhile wsChar).reverse = l.dropWhile wsChar from h3]
    _ = l.takeWhile wsChar ++ pyStrip l ++ ((l.dropWhile wsChar).reverse.takeWhile wsChar).reverse := by
        rw [List.append_assoc]

lemma hasTriple_pyStrip (l : List Char) (h : hasTriple l = false) :
    hasTriple (pyStrip l) = false := by
  cases hx : hasTriple (pyStrip l) with
  | false => rfl
  | true =>
    exfalso
    rcases (hasTriple_iff _).1 hx with ⟨x, y, hxy⟩
    rcases pyStrip_decomp l with ⟨u, v, huv⟩
    have hdc : l = (u ++ x) ++ btick :: btick :: btick :: (y ++ v) := by
      rw [huv, hxy]
      simp [List.append_assoc]
    have h2 : hasTriple l = true := (hasTriple_iff l).2 ⟨u ++ x, y ++ v, hdc⟩
    rw [h2] at h
    exact Bool.noConfusion h

lemma dropWhile_dropWhile (p : Char → Bool) (l : List Char) :
    (l.dropWhile p).dropWhile p = l.dropWhile p := by
  induction l with
  | nil => simp
  | cons a t ih =>
    by_cases hpa : p a = true
    · rw [List.dropWhile_cons_of_pos hpa]
      exact ih
    · rw [List.dropWhile_cons_of_neg hpa, List.dropWhile_cons_of_neg hpa]

lemma dropWhile_of_decomp (p : Char → Bool) (x y z : List Char)
    (hx : x.dropWhile p = x) (hxyz : x = y ++ z) : y.dropWhile p = y := by
  cases y with
  | nil => rfl
  | cons b y' =>
    by_cases hb : p b = true
    · exfalso
      rw [hxyz, List.cons_append, List.dropWhile_cons_of_pos hb] at hx
      have hlen := congrArg List.length hx
      have hle := dropWhile_length_le p (y' ++ z)
      simp only [List.length_cons, List.length_append] at hlen hle
      omega
    · rw [List.dropWhile_cons_of_neg hb]

lemma pyStrip_idem (l : List Char) : pyStrip (pyStrip l) = pyStrip l := by
  have e1 : (pyStrip l).dropWhile wsChar = pyStrip l := by
    have ha : (l.dropWhile wsChar).dropWhile wsChar = l.dropWhile wsChar :=
      dropWhile_dropWhile wsChar l
    have h2 := List.takeWhile_append_dropWhile wsChar (l.dropWhile wsChar).reverse
    have h3 := congrArg List.reverse h2
    rw [List.reverse_append, List.reverse_reverse] at h3
    exact dropWhile_of_decomp wsChar (l.dropWhile wsChar) (pyStrip l)
      (((l.dropWhile wsChar).reverse.takeWhile wsChar).reverse) ha h3.symm
  have e2 : (pyStrip l).reverse.dropWhile wsChar = (pyStrip l).reverse := by
    have hrev : (pyStrip l).reverse = (l.dropWhile wsChar).reverse.dropWhile wsChar := by
      show (((l.dropWhile wsChar).reverse.dropWhile wsChar).reverse).reverse = _
      rw [List.reverse_reverse]
    rw [hrev]
    exact dropWhile_dropWhile wsChar _
  calc pyStrip (pyStrip l)
      = (((pyStrip l).dropWhile wsChar).reverse.dropWhile wsChar).reverse := rfl
    _ = ((pyStrip l).reverse.dropWhile wsChar).reverse := by rw [e1]
    _ = (pyStrip l).reverse.reverse := by rw [e2]
    _ = pyStrip l := List.reverse_reverse _

/-- One shape of a presentation slide: whether it carries a text frame, and
its text. -/
structure Shape where
  hasTextFrame : Bool
  text : String
deriving DecidableEq

/-- One user-submitted file, as the extraction loop of src/app.py lines
69-88 sees it: the declared MIME type drives the branch taken, and the
per-format parsed payloads stand for what the corresponding library call
(page rasterization, paragraph extraction, slide shapes, image decoding)
would produce from the file bytes.  Images are identified by opaque
numeric ids. -/
structure UploadedFile where
  name : String
  mime : String
  pages : List Nat
  paragraphs : List String
  slides : List (List Shape)
  asImage : Nat
deriving DecidableEq

/-- One element of a multimodal request: the leading text context or an
embedded image. -/
inductive ReqPart where
  | text (s : String)
  | image (img : Nat)
deriving DecidableEq

/-- A call to an external collaborator, recorded in order: the batched
vision request, a text-generation request, or a rendering-library call
together with the fixed on-disk output path it writes. -/
inductive ExtCall where
  | vision (input : List ReqPart)
  | textGen (sys : String) (prompt : String)
  | pdfRenderCall (html : String) (path : String)
  | pngRenderCall (dot : String) (path : String)
deriving DecidableEq

/-- The two final artifacts plus the ready flag. -/
structure StudyPackOutput where
  pdfBytes : List Nat
  pngBytes : List Nat
  ready : Bool
deriving DecidableEq

/-- The black-box external collaborators: the vision model, the text model
(taking the system instruction and the prompt), the markdown-to-HTML
converter, and the two renderers producing byte buffers.  Fallible calls
return an error message on failure, modelling a raised exception. -/
structure Services where
  vision : List ReqPart → Except String String
  textGen : String → String → Except String String
  md2html : String → String
  pdfRender : String → Except String (List Nat)
  pngRender : String → Except String (List Nat)

/-- Outcome of one triggered run: the empty-upload warning, the clean
error-and-stop of the notes step, an uncaught exception aborting the
script, or full success. -/
inductive RunResult where
  | warned (msg : String)
  | cleanStop (errMsg : String)
  | crashed (errMsg : String)
  | success (out : StudyPackOutput)
deriving DecidableEq

/-- Trace of one triggered run: its outcome, the external calls issued in
order, and the files left on disk by the packaging step. -/
structure RunTrace where
  result : RunResult
  calls : List ExtCall
  filesWritten : List String
deriving DecidableEq

def mimePdf : String := "application/pdf"

def mimeDocx : String := "application/vnd.openxmlformats-officedocument.wordprocessingml.document"

def mimePptx : String := "application/vnd.openxmlformats-officedocument.presentationml.presentation"

/-- Text collected from a presentation (src/app.py lines 82-86): for every
slide, for every shape with a text frame, the shape text followed by a
newline. -/
def pptxText (slides : List (List Shape)) : String :=
  String.join (slides.map (fun sl =>
    String.join (sl.map (fun sh => if sh.hasTextFrame then sh.text ++ "\n" else ""))))

/-- One iteration of the extraction loop (src/app.py lines 69-88) over the
accumulator pair (extracted text, pending images): PDFs append their
rasterized pages to the image list, Word files append their
newline-joined paragraph text, presentations append their shape text, and
every other file - recognized image type or not - is decoded as an image
and appended to the image list. -/
def extractFile (acc : String × List Nat) (f : UploadedFile) : String × List Nat :=
  if f.mime = mimePdf then (acc.1, acc.2 ++ f.pages)
  else if f.mime = mimeDocx then (acc.1 ++ String.intercalate "\n" f.paragraphs, acc.2)
  else if f.mime = mimePptx then (acc.1 ++ pptxText f.slides, acc.2)
  else (acc.1, acc.2 ++ [f.asImage])

/-- The whole extraction step: fold the loop body over the uploads in
order, starting from empty accumulators. -/
def extractStep (files : List UploadedFile) : String × List Nat :=
  files.foldl extractFile ("", [])

/-- The batched vision request body (src/app.py line 92): the accumulated
extracted text as leading element, followed by all pending images. -/
def visionInput (content : String) (imgs : List Nat) : List ReqPart :=
  ReqPart.text content :: imgs.map ReqPart.image

/-- The vision step (src/app.py lines 90-95): when images are pending, one
batched request is issued and its text replaces the extracted content;
otherwise nothing happens.  Returns the resulting content (or the
propagated failure) together with the calls issued. -/
def visionStep (svc : Services) (content : String) (imgs : List Nat) :
    Except String String × List ExtCall :=
  if imgs.isEmpty then (Except.ok content, [])
  else (svc.vision (visionInput content imgs), [ExtCall.vision (visionInput content imgs)])

/-- The notes prompt template (src/app.py line 104). -/
def notesPrompt (content : String) : String :=
  "Please take the following extracted class notes and expand them into a detailed, comprehensive document. For each key point, provide detailed explanations, include concrete examples, and organize the information logically.\n\n---\n"
    ++ content ++ "\n---"

/-- The mind-map prompt template (src/app.py line 117). -/
def mindmapPrompt (notes : String) : String :=
  "Analyze the following text and generate a structural mind map in Graphviz DOT language. The central node should be the main topic. Create clear, hierarchical relationships. Keep node labels concise (1-3 words). Do not include any explanation, only the DOT code itself.\nText:\n---\n"
    ++ notes

/-- The HTML wrapper with inline stylesheet (src/app.py line 127). -/
def htmlWithStyle (htmlText : String) : String :=
  "<html><head><meta charset=\"utf-8\"><style>body\x7bfont-family: Arial, sans-serif;\x7d pre, code \x7bbackground-color: #f4f4f4; padding: 1em; border-radius: 5px;\x7d</style></head><body>"
    ++ htmlText ++ "</body></html>"

/-- The fixed on-disk name the PDF renderer writes (src/app.py line 128). -/
def notesPdfName : String := "Generated_Notes.pdf"

/-- The fixed on-disk name the graph renderer leaves behind
(src/app.py line 131, render of "Concept_Mind_Map" with format png and
cleanup of the intermediate source file). -/
def mindMapPngName : String := "Concept_Mind_Map.png"

/-- The packaging step (src/app.py lines 125-134): convert the notes to
HTML, wrap them in the stylesheet, render the PDF to its fixed path, then
render the mind map PNG to its fixed path.  Returns the outcome, the
rendering calls issued, and the files now present on disk; the PDF file
persists even when the later PNG render fails.  The byte buffers of a
successful output are the rendered bytes, read back from those files for
the download buttons (lines 141-147), and the ready flag is set only on
the all-success path. -/
def packagingStep (svc : Services) (notes dotCode : String) :
    Except String StudyPackOutput × List ExtCall × List String :=
  match svc.pdfRender (htmlWithStyle (svc.md2html notes)) with
  | Except.error e =>
      (Except.error e,
       [ExtCall.pdfRenderCall (htmlWithStyle (svc.md2html notes)) notesPdfName], [])
  | Except.ok pdf =>
    match svc.pngRender dotCode with
    | Except.error e =>
        (Except.error e,
         [ExtCall.pdfRenderCall (htmlWithStyle (svc.md2html notes)) notesPdfName,
          ExtCall.pngRenderCall dotCode mindMapPngName],
         [notesPdfName])
    | Except.ok png =>
        (Except.ok ⟨pdf, png, true⟩,
         [ExtCall.pdfRenderCall (htmlWithStyle (svc.md2html notes)) notesPdfName,
          ExtCall.pngRenderCall dotCode mindMapPngName],
         [notesPdfName, mindMapPngName])

/-- The whole pipeline behind the generate button (src/app.py lines
62-147), for a non-empty upload list: extraction, the optional vision
call, the notes call guarded by the only try/except (its failure shows
the error text and stops cleanly), the mind-map call after the fixed
pause (any failure is uncaught), fence stripping, and packaging (any
rendering failure is uncaught). -/
def runPipeline (svc : Services) (sysMsg : String) (files : List UploadedFile) : RunTrace :=
  let ex := extractStep files
  let vs := visionStep svc ex.1 ex.2
  match vs.1 with
  | Except.error e => ⟨RunResult.crashed e, vs.2, []⟩
  | Except.ok content =>
    match svc.textGen sysMsg (notesPrompt content) with
    | Except.error e =>
        ⟨RunResult.cleanStop ("An error occurred while generating notes: " ++ e),
         vs.2 ++ [ExtCall.textGen sysMsg (notesPrompt content)], []⟩
    | Except.ok notes =>
      match svc.textGen sysMsg (mindmapPrompt notes) with
      | Except.error e =>
          ⟨RunResult.crashed e,
           vs.2 ++ [ExtCall.textGen sysMsg (notesPrompt content),
                    ExtCall.textGen sysMsg (mindmapPrompt notes)], []⟩
      | Except.ok mresp =>
        let pk := packagingStep svc notes (stripFence mresp)
        match pk.1 with
        | Except.error e =>
            ⟨RunResult.crashed e,
             vs.2 ++ [ExtCall.textGen sysMsg (notesPrompt content),
                      ExtCall.textGen sysMsg (mindmapPrompt notes)] ++ pk.2.1,
             pk.2.2⟩
        | Except.ok out =>
            ⟨RunResult.success out,
             vs.2 ++ [ExtCall.textGen sysMsg (notesPrompt content),
                      ExtCall.textGen sysMsg (mindmapPrompt notes)] ++ pk.2.1,
             pk.2.2⟩

/-- What Session State holds after a run: the output only when the run
fully succeeded, nothing otherwise. -/
def storedOutput (t : RunTrace) : Option StudyPackOutput :=
  match t.result with
  | RunResult.success out => some out
  | _ => none

/-- The generate-button handler (src/app.py lines 61-62 and 148-149): an
empty upload list only produces the warning; otherwise the pipeline runs. -/
def triggerGenerate (svc : Services) (sysMsg : String) (files : List UploadedFile) : RunTrace :=
  if files.isEmpty then ⟨RunResult.warned "Please upload your notes to get started.", [], []⟩
  else runPipeline svc sysMsg files

/-- Concrete services where every external call succeeds, for evaluating
the model on closed runs. -/
def svcOK : Services :=
  ⟨fun _ => Except.ok "vision text",
   fun _ _ => Except.ok "generated notes",
   fun s => s,
   fun _ => Except.ok [37, 80, 68, 70],
   fun _ => Except.ok [137, 80, 78, 71]⟩

/-- Concrete services whose text-generation call fails with the message
quota exceeded. -/
def svcQuota : Services :=
  ⟨fun _ => Except.ok "vision text",
   fun _ _ => Except.error "quota exceeded",
   fun s => s,
   fun _ => Except.ok [37, 80, 68, 70],
   fun _ => Except.ok [137, 80, 78, 71]⟩

/-- A Word upload whose paragraphs are Topic A and Topic B. -/
def docxUpload : UploadedFile :=
  ⟨"notes.docx", mimeDocx, [], ["Topic A", "Topic B"], [], 0⟩

/-- An upload of a MIME type none of the branches recognize. -/
def plainUpload : UploadedFile :=
  ⟨"notes.txt", "text/plain", [], [], [], 7⟩

/-- Claim C8: pressing the generation trigger with an empty upload list
produces the warning and performs no service calls and no extraction,
generation or packaging work. -/
theorem empty_upload_warns (svc : Services) (sysMsg : String) :
    triggerGenerate svc sysMsg [] =
      ⟨RunResult.warned "Please upload your notes to get started.", [], []⟩ := rfl

/-- Claim C7: for a single Word upload with paragraphs Topic A and Topic B,
extraction yields exactly the newline-joined text with no pending images,
the vision step is a no-op issuing no call, and the notes prompt embeds
that exact string between the template delimiters. -/
theorem docx_scenario (svc : Services) :
    extractStep [docxUpload] = ("Topic A\nTopic B", []) ∧
    visionStep svc "Topic A\nTopic B" [] = (Except.ok "Topic A\nTopic B", []) ∧
    notesPrompt "Topic A\nTopic B" =
      "Please take the following extracted class notes and expand them into a detailed, comprehensive document. For each key point, provide detailed explanations, include concrete examples, and organize the information logically.\n\n---\n"
        ++ "Topic A\nTopic B" ++ "\n---" := by
  refine ⟨?_, rfl, rfl⟩
  rfl

/-- Claim C2: when the pending-image list is non-empty, the vision step
issues exactly one batched request whose leading element is the
accumulated extracted content followed by all pending images, and the
response replaces the content; with no pending images it is a no-op
issuing no request. -/
theorem vision_step_contract (svc : Services) (content : String) (imgs : List Nat) :
    (imgs = [] → visionStep svc content imgs = (Except.ok content, [])) ∧
    (imgs ≠ [] →
      (visionStep svc content imgs).2 =
        [ExtCall.vision (ReqPart.text content :: imgs.map ReqPart.image)] ∧
      (visionStep svc content imgs).1 =
        svc.vision (ReqPart.text content :: imgs.map ReqPart.image)) := by
  constructor
  · intro h
    subst h
    rfl
  · intro h
    have hne : imgs.isEmpty = false := by
      cases imgs with
      | nil => exact absurd rfl h
      | cons a t => rfl
    constructor <;> simp [visionStep, visionInput, hne]

/-- Witness for C2, applied at one pending image. -/
theorem vision_step_contract_check :
    (visionStep svcOK "ctx" [5]).2 = [ExtCall.vision [ReqPart.text "ctx", ReqPart.image 5]] :=
  ((vision_step_contract svcOK "ctx" [5]).2 (by decide)).1

/-- Claim C3: each uploaded file is routed to exactly one accumulator:
Word and presentation files touch only the extracted text, PDF files
append only their page images, and every other MIME type - unrecognized
ones included, with no explicit rejection - falls into the image branch
and appends only the decoded image. -/
theorem extract_routing (acc : String × List Nat) (f : UploadedFile) :
    ((f.mime = mimeDocx ∨ f.mime = mimePptx) → (extractFile acc f).2 = acc.2) ∧
    (f.mime ≠ mimeDocx → f.mime ≠ mimePptx → (extractFile acc f).1 = acc.1) ∧
    (f.mime = mimePdf → (extractFile acc f).2 = acc.2 ++ f.pages) ∧
    (f.mime ≠ mimePdf → f.mime ≠ mimeDocx → f.mime ≠ mimePptx →
      (extractFile acc f).2 = acc.2 ++ [f.asImage]) := by
  refine ⟨?_, ?_, ?_, ?_⟩
  · rintro (h | h)
    · have h1 : ¬ (mimeDocx = mimePdf) := by decide
      simp [extractFile, h, h1]
    · have h1 : ¬ (mimePptx = mimePdf) := by decide
      have h2 : ¬ (mimePptx = mimeDocx) := by decide
      simp [extractFile, h, h1, h2]
  · intro h1 h2
    by_cases hp : f.mime = mimePdf
    · simp [extractFile, hp]
    · simp [extractFile, hp, h1, h2]
  · intro hp
    simp [extractFile, hp]
  · intro hp h1 h2
    simp [extractFile, hp, h1, h2]

/-- Witness for C3, applied at an upload of unrecognized MIME type. -/
theorem extract_routing_check :
    (extractFile ("", []) plainUpload).2 = [7] :=
  (extract_routing ("", []) plainUpload).2.2.2 (by decide) (by decide) (by decide)

lemma data_append (a b : String) : (a ++ b).data = a.data ++ b.data := by
  cases a
  cases b
  rfl

lemma packagingStep_ready (svc : Services) (notes dc : String) (out : StudyPackOutput)
    (h : (packagingStep svc notes dc).1 = Except.ok out) :
    out.ready = true ∧ (packagingStep svc notes dc).2.2 = [notesPdfName, mindMapPngName] := by
  cases hp : svc.pdfRender (htmlWithStyle (svc.md2html notes)) with
  | error e =>
    simp only [packagingStep, hp] at h
    exact absurd h (by simp)
  | ok pdf =>
    cases hq : svc.pngRender dc with
    | error e =>
      simp only [packagingStep, hp, hq] at h
      exact absurd h (by simp)
    | ok png =>
      simp only [packagingStep, hp, hq, Except.ok.injEq] at h
      subst h
      exact ⟨rfl, by simp only [packagingStep, hp, hq]⟩

lemma runPipeline_success_spec (svc : Services) (sysMsg : String) (files : List UploadedFile)
    (out : StudyPackOutput)
    (h : (runPipeline svc sysMsg files).result = RunResult.success out) :
    out.ready = true ∧
    (runPipeline svc sysMsg files).filesWritten = [notesPdfName, mindMapPngName] := by
  cases hv : (visionStep svc (extractStep files).1 (extractStep files).2).1 with
  | error e =>
    simp only [runPipeline, hv] at h
    exact absurd h (by simp)
  | ok content =>
    cases hn : svc.textGen sysMsg (notesPrompt content) with
    | error e =>
      simp only [runPipeline, hv, hn] at h
      exact absurd h (by simp)
    | ok notes =>
      cases hm : svc.textGen sysMsg (mindmapPrompt notes) with
      | error e =>
        simp only [runPipeline, hv, hn, hm] at h
        exact absurd h (by simp)
      | ok mresp =>
        cases hpk : (packagingStep svc notes (stripFence mresp)).1 with
        | error e =>
          simp only [runPipeline, hv, hn, hm, hpk] at h
          exact absurd h (by simp)
        | ok out2 =>
          simp only [runPipeline, hv, hn, hm, hpk, RunResult.success.injEq] at h
          subst h
          have hr := packagingStep_ready svc notes (stripFence mresp) out2 hpk
          refine ⟨hr.1, ?_⟩
          simp only [runPipeline, hv, hn, hm, hpk]
          exact hr.2

/-- Claim C1: the ready flag of the study pack is set exactly when both the
notes-PDF conversion and the mind-map-PNG rendering complete without error;
a failure of either conversion yields no ready output, and only a fully
successful pipeline run stores a downloadable output, which is always
marked ready. -/
theorem ready_iff_both_renders (svc : Services) (notes dc sysMsg : String)
    (files : List UploadedFile) :
    ((∃ out, (packagingStep svc notes dc).1 = Except.ok out ∧ out.ready = true) ↔
      ((∃ b, svc.pdfRender (htmlWithStyle (svc.md2html notes)) = Except.ok b) ∧
       (∃ b, svc.pngRender dc = Except.ok b))) ∧
    (∀ out, storedOutput (runPipeline svc sysMsg files) = some out → out.ready = true) := by
  constructor
  · constructor
    · rintro ⟨out, hout, hready⟩
      cases hp : svc.pdfRender (htmlWithStyle (svc.md2html notes)) with
      | error e =>
        simp only [packagingStep, hp] at hout
        exact absurd hout (by simp)
      | ok pdf =>
        cases hq : svc.pngRender dc with
        | error e =>
          simp only [packagingStep, hp, hq] at hout
          exact absurd hout (by simp)
        | ok png => exact ⟨⟨pdf, rfl⟩, ⟨png, rfl⟩⟩
    · rintro ⟨⟨pdf, hp⟩, ⟨png, hq⟩⟩
      refine ⟨⟨pdf, png, true⟩, ?_, rfl⟩
      simp only [packagingStep, hp, hq]
  · intro out h
    cases hres : (runPipeline svc sysMsg files).result with
    | warned msg =>
      simp only [storedOutput, hres] at h
      exact Option.noConfusion h
    | cleanStop msg =>
      simp only [storedOutput, hres] at h
      exact Option.noConfusion h
    | crashed msg =>
      simp only [storedOutput, hres] at h
      exact Option.noConfusion h
    | success out2 =>
      simp only [storedOutput, hres, Option.some.injEq] at h
      subst h
      exact (runPipeline_success_spec svc sysMsg files out2 hres).1

/-- Witness for C1: a fully successful concrete run stores a ready output. -/
theorem ready_iff_both_renders_check :
    (⟨[37, 80, 68, 70], [137, 80, 78, 71], true⟩ : StudyPackOutput).ready = true :=
  (ready_iff_both_renders svcOK "n" "d" "sys" []).2
    ⟨[37, 80, 68, 70], [137, 80, 78, 71], true⟩ rfl

/-- Claim C4: a failure raised in the notes-generation step is caught, the
shown error text contains the failure message, the pipeline stops with no
further external call, nothing is written to disk, and no output is stored. -/
theorem notes_failure_halts (svc : Services) (sysMsg : String) (files : List UploadedFile)
    (e content : String)
    (hv : (visionStep svc (extractStep files).1 (extractStep files).2).1 = Except.ok content)
    (hn : svc.textGen sysMsg (notesPrompt content) = Except.error e) :
    (runPipeline svc sysMsg files).result =
      RunResult.cleanStop ("An error occurred while generating notes: " ++ e) ∧
    (∃ u v, ("An error occurred while generating notes: " ++ e).data = u ++ e.data ++ v) ∧
    (runPipeline svc sysMsg files).calls =
      (visionStep svc (extractStep files).1 (extractStep files).2).2 ++
        [ExtCall.textGen sysMsg (notesPrompt content)] ∧
    (runPipeline svc sysMsg files).filesWritten = [] ∧
    storedOutput (runPipeline svc sysMsg files) = none := by
  have hr : runPipeline svc sysMsg files =
      ⟨RunResult.cleanStop ("An error occurred while generating notes: " ++ e),
       (visionStep svc (extractStep files).1 (extractStep files).2).2 ++
         [ExtCall.textGen sysMsg (notesPrompt content)], []⟩ := by
    simp only [runPipeline, hv, hn]
  refine ⟨by rw [hr], ?_, by rw [hr], by rw [hr], by rw [hr]; rfl⟩
  refine ⟨("An error occurred while generating notes: " : String).data, [], ?_⟩
  rw [data_append, List.append_nil]

/-- Witness for C4: the quota-exceeded scenario on a concrete run. -/
theorem notes_failure_halts_check :
    (runPipeline svcQuota "sys" []).result =
      RunResult.cleanStop "An error occurred while generating notes: quota exceeded" := by
  have h := notes_failure_halts svcQuota "sys" [] "quota exceeded" "" rfl rfl
  exact h.1

/-- Claim C5 counterexample: on a concrete successful run the packaging
step leaves filesystem artifacts - the two fixed file names - on disk, so
the artifacts are not held purely as in-memory buffers. -/
theorem files_written_on_disk :
    (runPipeline svcOK "sys" [docxUpload]).filesWritten =
      ["Generated_Notes.pdf", "Concept_Mind_Map.png"] ∧
    (["Generated_Notes.pdf", "Concept_Mind_Map.png"] : List String) ≠ [] := by
  exact ⟨rfl, by decide⟩

/-- Claim C5 amended: the packaging step writes the notes PDF and the
mind-map PNG to the fixed on-disk names Generated_Notes.pdf and
Concept_Mind_Map.png, from which the downloads are served; every
successful run leaves exactly these filesystem artifacts. -/
theorem success_writes_fixed_files (svc : Services) (sysMsg : String)
    (files : List UploadedFile) (out : StudyPackOutput)
    (h : (runPipeline svc sysMsg files).result = RunResult.success out) :
    (runPipeline svc sysMsg files).filesWritten = [notesPdfName, mindMapPngName] :=
  (runPipeline_success_spec svc sysMsg files out h).2

/-- Witness for the amended C5 on a concrete successful run. -/
theorem success_writes_fixed_files_check :
    (runPipeline svcOK "sys" []).filesWritten = [notesPdfName, mindMapPngName] :=
  success_writes_fixed_files svcOK "sys" []
    ⟨[37, 80, 68, 70], [137, 80, 78, 71], true⟩ rfl

/-- Claim C9: with the external renderers modelled as black-box functions,
the PDF buffer of a packaged output is a function of the Markdown notes
alone - two packaging runs with the same notes but different diagram
sources yield identical PDF bytes - and is non-empty whenever the
renderer never returns an empty buffer. -/
theorem notes_pdf_deterministic (svc : Services) (notes dc dc' : String)
    (out out' : StudyPackOutput)
    (h1 : (packagingStep svc notes dc).1 = Except.ok out)
    (h2 : (packagingStep svc notes dc').1 = Except.ok out')
    (hne : ∀ h b, svc.pdfRender h = Except.ok b → b ≠ []) :
    out.pdfBytes = out'.pdfBytes ∧ out.pdfBytes ≠ [] := by
  cases hp : svc.pdfRender (htmlWithStyle (svc.md2html notes)) with
  | error e =>
    simp only [packagingStep, hp] at h1
    exact absurd h1 (by simp)
  | ok pdf =>
    cases hq : svc.pngRender dc with
    | error e =>
      simp only [packagingStep, hp, hq] at h1
      exact absurd h1 (by simp)
    | ok png =>
      cases hq' : svc.pngRender dc' with
      | error e =>
        simp only [packagingStep, hp, hq'] at h2
        exact absurd h2 (by simp)
      | ok png' =>
        simp only [packagingStep, hp, hq, Except.ok.injEq] at h1
        simp only [packagingStep, hp, hq', Except.ok.injEq] at h2
        subst h1
        subst h2
        exact ⟨rfl, hne _ pdf hp⟩

/-- Witness for C9 at concrete services and two distinct diagram sources. -/
theorem notes_pdf_deterministic_check :
    ([37, 80, 68, 70] : List Nat) = [37, 80, 68, 70] ∧
    ([37, 80, 68, 70] : List Nat) ≠ [] := by
  have hne : ∀ h b, svcOK.pdfRender h = Except.ok b → b ≠ [] := by
    intro h b hb
    injection hb with h2
    rw [← h2]
    decide
  exact notes_pdf_deterministic svcOK "md" "a" "b"
    ⟨[37, 80, 68, 70], [137, 80, 78, 71], true⟩
    ⟨[37, 80, 68, 70], [137, 80, 78, 71], true⟩ rfl rfl hne

/-- Claim C6: the fence-stripping operation on the mind-map response is
idempotent: applying the marker removal and trim twice yields the same
string as applying it once. -/
theorem strip_fence_idem (s : String) : stripFence (stripFence s) = stripFence s := by
  have h1 : hasTriple (fenceSub s.data) = false := hasTriple_fenceSub _
  have h2 : hasTriple (pyStrip (fenceSub s.data)) = false := hasTriple_pyStrip _ h1
  show String.mk (pyStrip (fenceSub (stripFence s).data)) = stripFence s
  have hd : (stripFence s).data = pyStrip (fenceSub s.data) := rfl
  rw [hd, fenceSub_of_noTriple _ h2, pyStrip_idem]
  rfl

/-- Claim C10: the substitution is global, not anchored to the leading and
trailing positions: no fence marker survives anywhere in the stripped
diagram source, since its output never contains three consecutive
backticks - in particular an interior marker, bare or with a dot language
tag, is deleted as well. -/
theorem fence_markers_all_removed (s : String) :
    hasTriple ((stripFence s).data) = false :=
  hasTriple_pyStrip _ (hasTriple_fenceSub _)
